import Mathlib

/-!
Shallow embedding of the `iochain` Go package: `StackWriter`
(src/stackwriter.go) and `MultiReader` (src/multireader.go), two stacks of
stream layers.  Methods are modelled as pure functions returning the new
state, an event log recording which layer operations were invoked (and, for
`Reset`, with which predecessor), and the Go return values.  A Go panic
(out-of-range slice index) is modelled as `Option.none`.
-/

namespace Iochain

/-- Errors observable through the package: `InvalidArgument` for the nil
checks (`errors.New("... cannot be nil")`), `closedResource` for
`io.ErrClosedPipe`, `eof` for `io.EOF`, and `layer n` for an error produced
by the layer with id `n`. -/
inductive Err where
  | invalidArgument : Err
  | closedResource : Err
  | eof : Err
  | layer : Nat → Err
deriving DecidableEq, Repr

/-- Instrumentation events: each invocation of a layer capability is
recorded.  `reset l t` means layer `l` had `Reset` invoked with layer `t`
as its new predecessor. -/
inductive Event where
  | reset : Nat → Nat → Event
  | write : Nat → Event
  | read : Nat → Event
  | flush : Nat → Event
  | close : Nat → Event
deriving DecidableEq, Repr

/-- Whether an event is a flush invocation. -/
def Event.isFlush : Event → Bool
  | .flush _ => true
  | _ => false

/-- Whether an event is a close invocation. -/
def Event.isClose : Event → Bool
  | .close _ => true
  | _ => false

/-- A writer layer (an `io.Writer`, possibly also `Flusher` / `io.Closer`,
and with an unconditional `Reset(io.Writer)` when used as a
`ResettableWriter`).  `write` gives the result of `Write(p)`; `hasFlush` /
`hasClose` record which optional interfaces the dynamic type implements,
and `flushErr` / `closeErr` the results of those calls. -/
structure WriterLayer where
  id : Nat
  write : List Nat → Nat × Option Err
  hasFlush : Bool
  flushErr : Option Err
  hasClose : Bool
  closeErr : Option Err

/-- A reader layer (an `io.Reader`, possibly also `io.Closer`, with a
fallible `Reset(io.Reader) error` when used as a `ResettableReader`).
`read` gives the result of `Read(p)` as a function of the buffer length;
`resetErr` is the result `Reset` returns. -/
structure ReaderLayer where
  id : Nat
  read : Nat → Nat × Option Err
  resetErr : Option Err
  hasClose : Bool
  closeErr : Option Err

/-- State of a `StackWriter`: the stored base and the `writers` slice, from
base to top. -/
structure StackWriter where
  base : WriterLayer
  writers : List WriterLayer

/-- State of a `MultiReader`: the `readers` slice, from base to top. -/
structure MultiReader where
  readers : List ReaderLayer

/-- `NewStackWriter(base)`: fails when base is nil, else starts the stack
as `[base]`. -/
def NewStackWriter : Option WriterLayer → Except Err StackWriter
  | none => .error .invalidArgument
  | some b => .ok { base := b, writers := [b] }

/-- `StackWriter.AddWriter(w)`: nil check first; then `Reset` is invoked
unconditionally on `w` with the current top as argument and `w` is
appended.  Indexing `writers[len-1]` on an empty slice panics (`none`). -/
def StackWriter.AddWriter (m : StackWriter) (w : Option WriterLayer) :
    Option (StackWriter × List Event × Option Err) :=
  match w with
  | none => some (m, [], some .invalidArgument)
  | some wl =>
    match m.writers.getLast? with
    | none => none
    | some prev =>
      some ({ m with writers := m.writers ++ [wl] },
        [Event.reset wl.id prev.id], none)

/-- `StackWriter.Write(p)`: on an empty (closed) stack returns
`(0, io.ErrClosedPipe)`; else delegates to the top writer. -/
def StackWriter.Write (m : StackWriter) (p : List Nat) :
    StackWriter × List Event × Nat × Option Err :=
  match m.writers.getLast? with
  | none => (m, [], 0, some .closedResource)
  | some top => (m, [Event.write top.id], top.write p)

/-- The `Flush` loop of src/stackwriter.go over the writers in visit order
(top first): a layer is flushed only when it implements `Flusher`, every
implementer is visited, and the first error encountered wins. -/
def sweepFlushW : List WriterLayer → List Event × Option Err
  | [] => ([], none)
  | w :: ws =>
    let rest := sweepFlushW ws
    if w.hasFlush then
      (Event.flush w.id :: rest.1,
        match w.flushErr with
        | some e => some e
        | none => rest.2)
    else rest

/-- The `Close` loop of src/stackwriter.go over the writers in visit order
(top first): a layer is closed only when it implements `io.Closer`, every
implementer is visited, and the first error encountered wins. -/
def sweepCloseW : List WriterLayer → List Event × Option Err
  | [] => ([], none)
  | w :: ws =>
    let rest := sweepCloseW ws
    if w.hasClose then
      (Event.close w.id :: rest.1,
        match w.closeErr with
        | some e => some e
        | none => rest.2)
    else rest

/-- `StackWriter.Flush()`: flushes top to base, leaving the state as is. -/
def StackWriter.Flush (m : StackWriter) :
    StackWriter × List Event × Option Err :=
  (m, sweepFlushW m.writers.reverse)

/-- `StackWriter.Close()`: closes top to base and unconditionally sets
`writers = nil`. -/
def StackWriter.Close (m : StackWriter) :
    StackWriter × List Event × Option Err :=
  let cl := sweepCloseW m.writers.reverse
  ({ m with writers := [] }, cl.1, cl.2)

/-- `StackWriter.FlushAndClose()`: a full flush pass, then a full close
pass, one shared first-error accumulator, and `writers = nil` at the
end. -/
def StackWriter.FlushAndClose (m : StackWriter) :
    StackWriter × List Event × Option Err :=
  let fl := sweepFlushW m.writers.reverse
  let cl := sweepCloseW m.writers.reverse
  ({ m with writers := [] }, fl.1 ++ cl.1,
    match fl.2 with
    | some e => some e
    | none => cl.2)

/-- `NewReader(base)`: fails when base is nil, else starts the stack as
`[base]`. -/
def NewReader : Option ReaderLayer → Except Err MultiReader
  | none => .error .invalidArgument
  | some b => .ok { readers := [b] }

/-- `MultiReader.AddReader(r)`: nil check first; then `Reset` is invoked
on `r` with the current top as argument; if it errors the add aborts with
that error and nothing is appended, else `r` is appended.  Indexing
`readers[len-1]` on an empty slice panics (`none`). -/
def MultiReader.AddReader (m : MultiReader) (r : Option ReaderLayer) :
    Option (MultiReader × List Event × Option Err) :=
  match r with
  | none => some (m, [], some .invalidArgument)
  | some rl =>
    match m.readers.getLast? with
    | none => none
    | some prev =>
      match rl.resetErr with
      | some e => some (m, [Event.reset rl.id prev.id], some e)
      | none =>
        some ({ readers := m.readers ++ [rl] },
          [Event.reset rl.id prev.id], none)

/-- `MultiReader.Read(p)`: on an empty (closed) stack returns
`(0, io.EOF)`; else delegates to the top reader. -/
def MultiReader.Read (m : MultiReader) (n : Nat) :
    MultiReader × List Event × Nat × Option Err :=
  match m.readers.getLast? with
  | none => (m, [], 0, some .eof)
  | some top => (m, [Event.read top.id], top.read n)

/-- The `Close` loop of src/multireader.go over the readers in visit order
(top first). -/
def sweepCloseR : List ReaderLayer → List Event × Option Err
  | [] => ([], none)
  | r :: rs =>
    let rest := sweepCloseR rs
    if r.hasClose then
      (Event.close r.id :: rest.1,
        match r.closeErr with
        | some e => some e
        | none => rest.2)
    else rest

/-- `MultiReader.Close()`: closes top to base and unconditionally sets
`readers = nil`. -/
def MultiReader.Close (m : MultiReader) :
    MultiReader × List Event × Option Err :=
  let cl := sweepCloseR m.readers.reverse
  ({ readers := [] }, cl.1, cl.2)

/-- Expected reset log when layers are attached in order on top of `t`:
the `Reset` of each layer receives the previous top. -/
def chainFromW (t : WriterLayer) : List WriterLayer → List Event
  | [] => []
  | l :: ls => Event.reset l.id t.id :: chainFromW l ls

/-- Expected reset log on the read side. -/
def chainFromR (t : ReaderLayer) : List ReaderLayer → List Event
  | [] => []
  | l :: ls => Event.reset l.id t.id :: chainFromR l ls

/-- Attach a list of writer layers in order, collecting events; `none` when
an add panics or reports an error. -/
def addAllW (m : StackWriter) : List WriterLayer → Option (StackWriter × List Event)
  | [] => some (m, [])
  | l :: ls =>
    match m.AddWriter (some l) with
    | some (m2, evs, none) =>
      match addAllW m2 ls with
      | some (mf, evsf) => some (mf, evs ++ evsf)
      | none => none
    | _ => none

/-- Attach a list of reader layers in order, collecting events; `none` when
an add panics or reports an error. -/
def addAllR (m : MultiReader) : List ReaderLayer → Option (MultiReader × List Event)
  | [] => some (m, [])
  | l :: ls =>
    match m.AddReader (some l) with
    | some (m2, evs, none) =>
      match addAllR m2 ls with
      | some (mf, evsf) => some (mf, evs ++ evsf)
      | none => none
    | _ => none

/-- Construct a write stack from a base and attach layers in order. -/
def buildW (b : WriterLayer) (ls : List WriterLayer) :
    Option (StackWriter × List Event) :=
  match NewStackWriter (some b) with
  | .error _ => none
  | .ok m => addAllW m ls

/-- Construct a read stack from a base and attach layers in order. -/
def buildR (b : ReaderLayer) (ls : List ReaderLayer) :
    Option (MultiReader × List Event) :=
  match NewReader (some b) with
  | .error _ => none
  | .ok m => addAllR m ls

/-- The source layer of a reset event, when the event is one. -/
def resetOf : Event → Option Nat
  | .reset j _ => some j
  | _ => none

/-- Reachable write-stack states between construction from base `b` and the
start of `Close`/`FlushAndClose`: the constructed state, and closure under
`AddWriter` (any outcome short of a panic), `Write` and `Flush`. -/
inductive ReachW (b : WriterLayer) : StackWriter → Prop where
  | construct (m : StackWriter) : NewStackWriter (some b) = .ok m → ReachW b m
  | add (m m2 : StackWriter) (w : Option WriterLayer) (evs : List Event)
      (err : Option Err) : ReachW b m →
      m.AddWriter w = some (m2, evs, err) → ReachW b m2
  | wr (m : StackWriter) (p : List Nat) : ReachW b m → ReachW b (m.Write p).1
  | fl (m : StackWriter) : ReachW b m → ReachW b (m.Flush).1

/-- Reachable read-stack states between construction from base `b` and the
start of `Close`: the constructed state, and closure under `AddReader` (any
outcome short of a panic) and `Read`. -/
inductive ReachR (b : ReaderLayer) : MultiReader → Prop where
  | construct (m : MultiReader) : NewReader (some b) = .ok m → ReachR b m
  | add (m m2 : MultiReader) (r : Option ReaderLayer) (evs : List Event)
      (err : Option Err) : ReachR b m →
      m.AddReader r = some (m2, evs, err) → ReachR b m2
  | rd (m : MultiReader) (n : Nat) : ReachR b m → ReachR b (m.Read n).1

/-- Fixture: an in-memory sink writer with no optional capabilities. -/
def wSink : WriterLayer :=
  { id := 0, write := fun p => (p.length, none),
    hasFlush := false, flushErr := none, hasClose := false, closeErr := none }

/-- Fixture: a buffering layer implementing `Flusher` and `io.Closer`,
never failing. -/
def wA : WriterLayer :=
  { id := 1, write := fun p => (p.length, none),
    hasFlush := true, flushErr := none, hasClose := true, closeErr := none }

/-- Fixture: a layer implementing `Flusher` and `io.Closer` whose flush and
close both fail. -/
def wB : WriterLayer :=
  { id := 2, write := fun _ => (0, some (.layer 2)),
    hasFlush := true, flushErr := some (.layer 2),
    hasClose := true, closeErr := some (.layer 2) }

/-- Fixture: a base reader with no optional capabilities. -/
def rSrc : ReaderLayer :=
  { id := 10, read := fun n => (min n 10, none),
    resetErr := none, hasClose := false, closeErr := none }

/-- Fixture: a reader layer with a closer, whose reset succeeds. -/
def rA : ReaderLayer :=
  { id := 11, read := fun n => (n, none),
    resetErr := none, hasClose := true, closeErr := none }

/-- Fixture: a reader layer with a failing closer, whose reset succeeds. -/
def rB : ReaderLayer :=
  { id := 12, read := fun n => (n, none),
    resetErr := none, hasClose := true, closeErr := some (.layer 12) }

/-- Fixture: a reader layer whose `Reset` fails. -/
def rBad : ReaderLayer :=
  { id := 13, read := fun _ => (0, some .eof),
    resetErr := some (.layer 13), hasClose := false, closeErr := none }

theorem head?_append_left {α : Type} (l l2 : List α) (h : l ≠ []) :
    (l ++ l2).head? = l.head? := by
  cases l with
  | nil => exact absurd rfl h
  | cons a t => rfl

theorem getLast?_cons_eq {α : Type} (b : α) (ls : List α) :
    (b :: ls).getLast? = some (ls.getLastD b) := by
  induction ls generalizing b with
  | nil => rfl
  | cons l ls ih =>
    rw [List.getLast?_cons_cons, ih, List.getLastD_cons]

theorem sweepFlushW_eq (ws : List WriterLayer) :
    sweepFlushW ws =
      ((ws.filter fun w => w.hasFlush).map fun w => Event.flush w.id,
       ((ws.filter fun w => w.hasFlush).filterMap fun w => w.flushErr).head?) := by
  induction ws with
  | nil => rfl
  | cons w ws ih =>
    simp only [sweepFlushW, ih, List.filter_cons]
    by_cases h : w.hasFlush
    · simp only [h, if_true, List.map_cons, List.filterMap_cons]
      cases w.flushErr <;> simp
    · simp [h]

theorem sweepCloseW_eq (ws : List WriterLayer) :
    sweepCloseW ws =
      ((ws.filter fun w => w.hasClose).map fun w => Event.close w.id,
       ((ws.filter fun w => w.hasClose).filterMap fun w => w.closeErr).head?) := by
  induction ws with
  | nil => rfl
  | cons w ws ih =>
    simp only [sweepCloseW, ih, List.filter_cons]
    by_cases h : w.hasClose
    · simp only [h, if_true, List.map_cons, List.filterMap_cons]
      cases w.closeErr <;> simp
    · simp [h]

theorem sweepCloseR_eq (rs : List ReaderLayer) :
    sweepCloseR rs =
      ((rs.filter fun r => r.hasClose).map fun r => Event.close r.id,
       ((rs.filter fun r => r.hasClose).filterMap fun r => r.closeErr).head?) := by
  induction rs with
  | nil => rfl
  | cons r rs ih =>
    simp only [sweepCloseR, ih, List.filter_cons]
    by_cases h : r.hasClose
    · simp only [h, if_true, List.map_cons, List.filterMap_cons]
      cases r.closeErr <;> simp
    · simp [h]

theorem addAllW_spec (ls : List WriterLayer) :
    ∀ (m : StackWriter) (t : WriterLayer), m.writers.getLast? = some t →
      addAllW m ls = some ({ m with writers := m.writers ++ ls }, chainFromW t ls) := by
  induction ls with
  | nil => intro m t _; simp [addAllW, chainFromW]
  | cons l ls ih =>
    intro m t h
    simp only [addAllW, StackWriter.AddWriter, h]
    rw [ih { m with writers := m.writers ++ [l] } l (by simp)]
    simp [chainFromW]

theorem buildW_spec (b : WriterLayer) (ls : List WriterLayer) :
    buildW b ls = some ({ base := b, writers := b :: ls }, chainFromW b ls) := by
  simp only [buildW, NewStackWriter]
  rw [addAllW_spec ls { base := b, writers := [b] } b rfl]
  simp

theorem addAllR_spec (ls : List ReaderLayer) :
    ∀ (m : MultiReader) (t : ReaderLayer), m.readers.getLast? = some t →
      (∀ l ∈ ls, l.resetErr = none) →
      addAllR m ls = some ({ readers := m.readers ++ ls }, chainFromR t ls) := by
  induction ls with
  | nil => intro m t _ _; simp [addAllR, chainFromR]
  | cons l ls ih =>
    intro m t h hr
    have hl : l.resetErr = none := hr l (List.mem_cons_self l ls)
    simp only [addAllR, MultiReader.AddReader, h, hl]
    rw [ih { readers := m.readers ++ [l] } l (by simp)
      (fun x hx => hr x (List.mem_cons_of_mem l hx))]
    simp [chainFromR]

theorem buildR_spec (b : ReaderLayer) (ls : List ReaderLayer)
    (hr : ∀ l ∈ ls, l.resetErr = none) :
    buildR b ls = some ({ readers := b :: ls }, chainFromR b ls) := by
  simp only [buildR, NewReader]
  rw [addAllR_spec ls { readers := [b] } b rfl hr]
  simp

theorem chainFromW_filterMap (ls : List WriterLayer) :
    ∀ t, (chainFromW t ls).filterMap resetOf = ls.map WriterLayer.id := by
  induction ls with
  | nil => intro t; rfl
  | cons l ls ih => intro t; simp [chainFromW, List.filterMap_cons, resetOf, ih]

theorem chainFromR_filterMap (ls : List ReaderLayer) :
    ∀ t, (chainFromR t ls).filterMap resetOf = ls.map ReaderLayer.id := by
  induction ls with
  | nil => intro t; rfl
  | cons l ls ih => intro t; simp [chainFromR, List.filterMap_cons, resetOf, ih]

theorem countP_filterMap_resetOf (j : Nat) (xs : List Event) :
    (xs.countP fun e => resetOf e == some j) = (xs.filterMap resetOf).count j := by
  induction xs with
  | nil => rfl
  | cons x xs ih =>
    cases hx : resetOf x with
    | none => simp [List.countP_cons, List.filterMap_cons, hx, ih]
    | some v =>
      by_cases hv : v = j
      · subst hv
        simp [List.countP_cons, List.filterMap_cons, hx, ih, List.count_cons]
      · simp [List.countP_cons, List.filterMap_cons, hx, ih, List.count_cons, hv]

theorem addW_shape (m : StackWriter) (w : Option WriterLayer)
    (m2 : StackWriter) (evs : List Event) (err : Option Err)
    (h : m.AddWriter w = some (m2, evs, err)) :
    m2.writers = m.writers ∨ ∃ l, w = some l ∧ m2.writers = m.writers ++ [l] := by
  cases w with
  | none =>
    simp only [StackWriter.AddWriter, Option.some.injEq, Prod.mk.injEq] at h
    left; rw [← h.1]
  | some l =>
    right
    refine ⟨l, rfl, ?_⟩
    cases hg : m.writers.getLast? with
    | none => simp [StackWriter.AddWriter, hg] at h
    | some prev =>
      simp only [StackWriter.AddWriter, hg, Option.some.injEq, Prod.mk.injEq] at h
      rw [← h.1]

theorem addR_shape (m : MultiReader) (r : Option ReaderLayer)
    (m2 : MultiReader) (evs : List Event) (err : Option Err)
    (h : m.AddReader r = some (m2, evs, err)) :
    m2.readers = m.readers ∨ ∃ l, r = some l ∧ m2.readers = m.readers ++ [l] := by
  cases r with
  | none =>
    simp only [MultiReader.AddReader, Option.some.injEq, Prod.mk.injEq] at h
    left; rw [← h.1]
  | some l =>
    cases hg : m.readers.getLast? with
    | none => simp [MultiReader.AddReader, hg] at h
    | some prev =>
      cases hre : l.resetErr with
      | some e =>
        simp only [MultiReader.AddReader, hg, hre, Option.some.injEq,
          Prod.mk.injEq] at h
        left; rw [← h.1]
      | none =>
        right
        refine ⟨l, rfl, ?_⟩
        simp only [MultiReader.AddReader, hg, hre, Option.some.injEq,
          Prod.mk.injEq] at h
        rw [← h.1]

theorem writeFrame (m : StackWriter) (p : List Nat) : (m.Write p).1 = m := by
  cases hg : m.writers.getLast? <;> simp [StackWriter.Write, hg]

theorem readFrame (m : MultiReader) (n : Nat) : (m.Read n).1 = m := by
  cases hg : m.readers.getLast? <;> simp [MultiReader.Read, hg]

theorem reachW_inv (b : WriterLayer) (m : StackWriter) (h : ReachW b m) :
    m.writers ≠ [] ∧ m.writers.head? = some b := by
  induction h with
  | construct m hc =>
    simp only [NewStackWriter, Except.ok.injEq] at hc
    rw [← hc]
    exact ⟨by simp, rfl⟩
  | add m m2 w evs err _ hadd ih =>
    rcases addW_shape m w m2 evs err hadd with hsame | ⟨l, _, happ⟩
    · rw [hsame]; exact ih
    · rw [happ]
      refine ⟨by simp, ?_⟩
      rw [head?_append_left m.writers [l] ih.1]
      exact ih.2
  | wr m p _ ih => rw [writeFrame]; exact ih
  | fl m _ ih => exact ih

theorem reachR_inv (b : ReaderLayer) (m : MultiReader) (h : ReachR b m) :
    m.readers ≠ [] ∧ m.readers.head? = some b := by
  induction h with
  | construct m hc =>
    simp only [NewReader, Except.ok.injEq] at hc
    rw [← hc]
    exact ⟨by simp, rfl⟩
  | add m m2 r evs err _ hadd ih =>
    rcases addR_shape m r m2 evs err hadd with hsame | ⟨l, _, happ⟩
    · rw [hsame]; exact ih
    · rw [happ]
      refine ⟨by simp, ?_⟩
      rw [head?_append_left m.readers [l] ih.1]
      exact ih.2
  | rd m n _ ih => rw [readFrame]; exact ih

/-- C2: after any `Close` or `FlushAndClose` on either stack — regardless
of the errors the layer closes returned — the layer sequence is empty,
every subsequent `Write` fails with `ClosedResource`, and every subsequent
`Read` returns an end-of-stream signal `(0, EOF)` rather than an error. -/
theorem c2_closed_stack_unusable (m : StackWriter) (mr : MultiReader)
    (p : List Nat) (q : List Nat) (n : Nat) :
    (m.Close).1.writers = []
    ∧ (m.FlushAndClose).1.writers = []
    ∧ ((m.Close).1).Write p = ((m.Close).1, [], 0, some Err.closedResource)
    ∧ ((m.FlushAndClose).1).Write q =
        ((m.FlushAndClose).1, [], 0, some Err.closedResource)
    ∧ (mr.Close).1.readers = []
    ∧ ((mr.Close).1).Read n = ((mr.Close).1, [], 0, some Err.eof) :=
  ⟨rfl, rfl, rfl, rfl, rfl, rfl⟩

/-- C3: `Flush` and the two `Close` sweeps visit the layers in strict
top-to-base order (the reverse of the stored base-to-top sequence), invoke
the capability exactly on the layers implementing it — skipping the others
without error — still invoke every implementer when some fail, and return
the error of the first (topmost) failing layer. -/
theorem c3_sweep_order_and_first_error (m : StackWriter) (mr : MultiReader) :
    m.Flush = (m,
      (m.writers.reverse.filter fun w => w.hasFlush).map (fun w => Event.flush w.id),
      ((m.writers.reverse.filter fun w => w.hasFlush).filterMap
        fun w => w.flushErr).head?)
    ∧ m.Close = ({ m with writers := [] },
      (m.writers.reverse.filter fun w => w.hasClose).map (fun w => Event.close w.id),
      ((m.writers.reverse.filter fun w => w.hasClose).filterMap
        fun w => w.closeErr).head?)
    ∧ mr.Close = ({ readers := [] },
      (mr.readers.reverse.filter fun r => r.hasClose).map (fun r => Event.close r.id),
      ((mr.readers.reverse.filter fun r => r.hasClose).filterMap
        fun r => r.closeErr).head?) := by
  refine ⟨?_, ?_, ?_⟩
  · simp [StackWriter.Flush, sweepFlushW_eq]
  · simp [StackWriter.Close, sweepCloseW_eq]
  · simp [MultiReader.Close, sweepCloseR_eq]

/-- C4: `FlushAndClose` performs every flush strictly before any close
(its event log is the log of the flush pass, flush events only, followed
by the log of the close pass, close events only), returns the first error across both
phases — a flush-phase error takes precedence — and clears the layer
sequence regardless of errors. -/
theorem c4_flush_strictly_before_close (m : StackWriter) :
    (m.FlushAndClose).1.writers = []
    ∧ (m.FlushAndClose).2.1 = (m.Flush).2.1 ++ (m.Close).2.1
    ∧ (m.FlushAndClose).2.2 = (match (m.Flush).2.2 with
        | some e => some e
        | none => (m.Close).2.2)
    ∧ ((m.Flush).2.1.all Event.isFlush) = true
    ∧ ((m.Close).2.1.all Event.isClose) = true := by
  refine ⟨rfl, rfl, rfl, ?_, ?_⟩
  · rw [List.all_eq_true]
    intro e he
    simp only [StackWriter.Flush, sweepFlushW_eq, List.mem_map] at he
    obtain ⟨w, _, hw⟩ := he
    rw [← hw]
    rfl
  · rw [List.all_eq_true]
    intro e he
    simp only [StackWriter.Close, sweepCloseW_eq, List.mem_map] at he
    obtain ⟨w, _, hw⟩ := he
    rw [← hw]
    rfl

/-- C6: constructing either stack from a nil base fails with
`InvalidArgument` and yields no stack, and adding a nil layer to either
stack fails with `InvalidArgument` leaving the layer sequence unchanged. -/
theorem c6_nil_arguments_rejected (mw : StackWriter) (mr : MultiReader) :
    NewStackWriter none = .error Err.invalidArgument
    ∧ NewReader none = .error Err.invalidArgument
    ∧ mw.AddWriter none = some (mw, [], some Err.invalidArgument)
    ∧ mr.AddReader none = some (mr, [], some Err.invalidArgument) :=
  ⟨rfl, rfl, rfl, rfl⟩

/-- C8: adding a non-nil layer to an already closed stack is unguarded:
the code indexes the layer slice at `length - 1` while it is empty, a
panic (modelled as `none`), instead of returning `ClosedResource` or any
error. -/
theorem c8_add_after_close_panics (m : StackWriter) (mr : MultiReader)
    (w : WriterLayer) (w2 : WriterLayer) (r : ReaderLayer) :
    ((m.Close).1).AddWriter (some w) = none
    ∧ ((m.FlushAndClose).1).AddWriter (some w2) = none
    ∧ ((mr.Close).1).AddReader (some r) = none :=
  ⟨rfl, rfl, rfl⟩

/-- C9: on an already closed stack (empty layer sequence) a further
`Close`, `Flush` or `FlushAndClose` returns no error, logs no events, and
leaves the sequence empty. -/
theorem c9_close_idempotent_when_empty (m : StackWriter) (mr : MultiReader)
    (hw : m.writers = []) (hr : mr.readers = []) :
    m.Flush = (m, [], none)
    ∧ m.Close = (m, [], none)
    ∧ m.FlushAndClose = (m, [], none)
    ∧ mr.Close = (mr, [], none) := by
  obtain ⟨b, ws⟩ := m
  obtain ⟨rs⟩ := mr
  simp only at hw hr
  subst hw
  subst hr
  exact ⟨rfl, rfl, rfl, rfl⟩

/-- C9 witness: the already-closed write and read stacks evaluated
concretely. -/
theorem c9_close_idempotent_when_empty_witness :
    (StackWriter.mk wSink []).writers = []
    ∧ (MultiReader.mk []).readers = []
    ∧ (StackWriter.mk wSink []).Flush = (StackWriter.mk wSink [], [], none)
    ∧ (StackWriter.mk wSink []).Close = (StackWriter.mk wSink [], [], none)
    ∧ (StackWriter.mk wSink []).FlushAndClose = (StackWriter.mk wSink [], [], none)
    ∧ (MultiReader.mk []).Close = (MultiReader.mk [], [], none) := by
  refine ⟨rfl, rfl, ?_⟩
  have h := c9_close_idempotent_when_empty (StackWriter.mk wSink [])
    (MultiReader.mk []) rfl rfl
  exact ⟨h.1, h.2.1, h.2.2.1, h.2.2.2⟩

/-- C10: `Flush` leaves the write stack unchanged — same layers in the
same order whether or not it returns an error — and a subsequent `Write`
behaves exactly as before the flush. -/
theorem c10_flush_frame (m : StackWriter) (p : List Nat) :
    (m.Flush).1 = m ∧ ((m.Flush).1).Write p = m.Write p :=
  ⟨rfl, rfl⟩

/-- C1: a stack built from a non-null base `b` with layers attached in
order (all adds succeeding) holds `b :: ls`; `Write` / `Read` delegate
exactly to the last attached layer (or to `b` when none was attached); the
attach-time event log is exactly the reset chain binding each layer to its
predecessor, and — with distinct layer ids — the `Reset` of each attached layer
was invoked exactly once. -/
theorem c1_delegation_and_reset_chain
    (b : WriterLayer) (ls : List WriterLayer) (p : List Nat)
    (br : ReaderLayer) (rs : List ReaderLayer) (n : Nat)
    (hnd : (ls.map WriterLayer.id).Nodup)
    (hres : ∀ l ∈ rs, l.resetErr = none)
    (hndr : (rs.map ReaderLayer.id).Nodup) :
    buildW b ls = some ({ base := b, writers := b :: ls }, chainFromW b ls)
    ∧ ((ls.map WriterLayer.id).all fun j =>
        ((chainFromW b ls).countP fun e => resetOf e == some j) == 1) = true
    ∧ StackWriter.Write { base := b, writers := b :: ls } p =
        ({ base := b, writers := b :: ls }, [Event.write (ls.getLastD b).id],
          (ls.getLastD b).write p)
    ∧ buildR br rs = some ({ readers := br :: rs }, chainFromR br rs)
    ∧ ((rs.map ReaderLayer.id).all fun j =>
        ((chainFromR br rs).countP fun e => resetOf e == some j) == 1) = true
    ∧ MultiReader.Read { readers := br :: rs } n =
        ({ readers := br :: rs }, [Event.read (rs.getLastD br).id],
          (rs.getLastD br).read n) := by
  refine ⟨buildW_spec b ls, ?_, ?_, buildR_spec br rs hres, ?_, ?_⟩
  · rw [List.all_eq_true]
    intro j hj
    rw [beq_iff_eq, countP_filterMap_resetOf, chainFromW_filterMap]
    exact List.count_eq_one_of_mem hnd hj
  · simp only [StackWriter.Write]
    rw [getLast?_cons_eq]
  · rw [List.all_eq_true]
    intro j hj
    rw [beq_iff_eq, countP_filterMap_resetOf, chainFromR_filterMap]
    exact List.count_eq_one_of_mem hndr hj
  · simp only [MultiReader.Read]
    rw [getLast?_cons_eq]

/-- C1 witness: base plus two layers on each side, evaluated concretely. -/
theorem c1_delegation_and_reset_chain_witness :
    buildW wSink [wA, wB] =
      some ({ base := wSink, writers := [wSink, wA, wB] }, chainFromW wSink [wA, wB])
    ∧ (([wA, wB].map WriterLayer.id).all fun j =>
        ((chainFromW wSink [wA, wB]).countP fun e => resetOf e == some j) == 1) = true
    ∧ StackWriter.Write { base := wSink, writers := [wSink, wA, wB] } [3, 1, 4] =
        ({ base := wSink, writers := [wSink, wA, wB] }, [Event.write wB.id],
          wB.write [3, 1, 4])
    ∧ buildR rSrc [rA, rB] =
      some ({ readers := [rSrc, rA, rB] }, chainFromR rSrc [rA, rB])
    ∧ (([rA, rB].map ReaderLayer.id).all fun j =>
        ((chainFromR rSrc [rA, rB]).countP fun e => resetOf e == some j) == 1) = true
    ∧ MultiReader.Read { readers := [rSrc, rA, rB] } 5 =
        ({ readers := [rSrc, rA, rB] }, [Event.read rB.id], rB.read 5) :=
  c1_delegation_and_reset_chain wSink [wA, wB] [3, 1, 4] rSrc [rA, rB] 5
    (by decide) (by decide) (by decide)

/-- C5: on the read side a failed `Reset` aborts the attach atomically:
`AddReader` returns the reset error, the layer is not appended, and the
stack afterwards is exactly the stack before the call (same length, same
top). -/
theorem c5_failed_reset_aborts_attach (m : MultiReader) (rl : ReaderLayer)
    (e : Err) (h : rl.resetErr = some e) (hne : m.readers ≠ []) :
    m.AddReader (some rl) =
      some (m, [Event.reset rl.id ((m.readers.getLast hne).id)], some e) := by
  simp only [MultiReader.AddReader, List.getLast?_eq_getLast m.readers hne, h]

/-- C5 witness: attaching the reset-failing layer to a singleton read
stack returns the reset error and leaves the stack untouched. -/
theorem c5_failed_reset_aborts_attach_witness :
    MultiReader.AddReader (MultiReader.mk [rSrc]) (some rBad) =
      some (MultiReader.mk [rSrc], [Event.reset rBad.id rSrc.id],
        some (Err.layer 13)) :=
  c5_failed_reset_aborts_attach (MultiReader.mk [rSrc]) rBad (Err.layer 13)
    rfl (List.cons_ne_nil rSrc [])

/-- C7: on every reachable stack state between construction and close, the
layer sequence is non-empty with the base at index 0; a successful add
appends exactly one element at the end, a nil add and `Write`/`Read`/`Flush`
leave the sequence unchanged, and only the wholesale clear of
`Close`/`FlushAndClose` empties it — layers are never reordered or removed
individually. -/
theorem c7_reachable_invariant (b : WriterLayer) (m : StackWriter)
    (br : ReaderLayer) (mr : MultiReader)
    (h : ReachW b m) (h2 : ReachR br mr)
    (l : WriterLayer) (r : ReaderLayer) (p : List Nat) (n : Nat) :
    m.writers ≠ []
    ∧ m.writers.head? = some b
    ∧ m.AddWriter (some l) =
        some ({ m with writers := m.writers ++ [l] },
          [Event.reset l.id ((m.writers.getLast (reachW_inv b m h).1).id)], none)
    ∧ m.AddWriter none = some (m, [], some Err.invalidArgument)
    ∧ (m.Write p).1 = m
    ∧ (m.Flush).1 = m
    ∧ (m.Close).1.writers = []
    ∧ (m.FlushAndClose).1.writers = []
    ∧ mr.readers ≠ []
    ∧ mr.readers.head? = some br
    ∧ mr.AddReader (some r) =
        some (match r.resetErr with
          | some e => (mr,
              [Event.reset r.id ((mr.readers.getLast (reachR_inv br mr h2).1).id)],
              some e)
          | none => ({ readers := mr.readers ++ [r] },
              [Event.reset r.id ((mr.readers.getLast (reachR_inv br mr h2).1).id)],
              none))
    ∧ mr.AddReader none = some (mr, [], some Err.invalidArgument)
    ∧ (mr.Read n).1 = mr
    ∧ (mr.Close).1.readers = [] := by
  have hw := reachW_inv b m h
  have hrr := reachR_inv br mr h2
  refine ⟨hw.1, hw.2, ?_, rfl, writeFrame m p, rfl, rfl, rfl, hrr.1, hrr.2,
    ?_, rfl, readFrame mr n, rfl⟩
  · simp only [StackWriter.AddWriter, List.getLast?_eq_getLast m.writers hw.1]
  · simp only [MultiReader.AddReader, List.getLast?_eq_getLast mr.readers hrr.1]
    cases hre : r.resetErr <;> rfl

/-- C7 witness: a concrete reachable state on each side (base plus one
attached layer), with every operation evaluated. -/
theorem c7_reachable_invariant_witness :
    (StackWriter.mk wSink [wSink, wA]).writers ≠ []
    ∧ (StackWriter.mk wSink [wSink, wA]).writers.head? = some wSink
    ∧ (StackWriter.mk wSink [wSink, wA]).AddWriter (some wB) =
        some (StackWriter.mk wSink [wSink, wA, wB],
          [Event.reset wB.id wA.id], none)
    ∧ (StackWriter.mk wSink [wSink, wA]).AddWriter none =
        some (StackWriter.mk wSink [wSink, wA], [], some Err.invalidArgument)
    ∧ ((StackWriter.mk wSink [wSink, wA]).Write [9]).1 =
        StackWriter.mk wSink [wSink, wA]
    ∧ ((StackWriter.mk wSink [wSink, wA]).Flush).1 =
        StackWriter.mk wSink [wSink, wA]
    ∧ ((StackWriter.mk wSink [wSink, wA]).Close).1.writers = []
    ∧ ((StackWriter.mk wSink [wSink, wA]).FlushAndClose).1.writers = []
    ∧ (MultiReader.mk [rSrc, rA]).readers ≠ []
    ∧ (MultiReader.mk [rSrc, rA]).readers.head? = some rSrc
    ∧ (MultiReader.mk [rSrc, rA]).AddReader (some rB) =
        some (MultiReader.mk [rSrc, rA, rB], [Event.reset rB.id rA.id], none)
    ∧ (MultiReader.mk [rSrc, rA]).AddReader none =
        some (MultiReader.mk [rSrc, rA], [], some Err.invalidArgument)
    ∧ ((MultiReader.mk [rSrc, rA]).Read 2).1 = MultiReader.mk [rSrc, rA]
    ∧ ((MultiReader.mk [rSrc, rA]).Close).1.readers = [] :=
  c7_reachable_invariant wSink (StackWriter.mk wSink [wSink, wA])
    rSrc (MultiReader.mk [rSrc, rA])
    (ReachW.add (StackWriter.mk wSink [wSink]) (StackWriter.mk wSink [wSink, wA])
      (some wA) [Event.reset wA.id wSink.id] none
      (ReachW.construct (StackWriter.mk wSink [wSink]) rfl) rfl)
    (ReachR.add (MultiReader.mk [rSrc]) (MultiReader.mk [rSrc, rA])
      (some rA) [Event.reset rA.id rSrc.id] none
      (ReachR.construct (MultiReader.mk [rSrc]) rfl) rfl)
    wB rB [9] 2

end Iochain
